import Mathlib

/-!
Verification of the swapchain image lifecycle state machine of the OpenXR
conformance layer (`src/conformance/conformance_layer/Swapchain.cpp`).

The layer intercepts each swapchain entry point, forwards it to the real
runtime, and then validates the runtime's outputs against tracked
per-swapchain state.  The runtime's behaviour (its `XrResult`, the values it
writes through output pointers, the measured wall-clock wait duration) is
nondeterministic input here, so each hook is embedded as a pure function from
the tracked pre-state plus the runtime-produced values to an `Outcome` holding
the updated tracked state, the emitted diagnostics and the `XrResult` handed
back to the application.
-/

namespace OpenXRConformance

/-- Per-image lifecycle state tracked by the conformance layer
(`swapchain::ImageState`, used throughout `Swapchain.cpp`). -/
inductive ImageState where
  | Created
  | Acquired
  | Waited
  | Released
deriving DecidableEq, Repr

/-- Tracked per-swapchain state (`swapchain::CustomSwapchainState`): the
static flag derived from the creation parameters, the per-image states indexed
by image index, and the FIFO queue of acquired-but-not-released image indices
(`acquiredSwapchains`, head = front of the `std::queue`). -/
structure CustomSwapchainState where
  isStatic : Bool
  imageStates : List ImageState
  acquiredSwapchains : List Nat
deriving DecidableEq, Repr

/-- `XR_SUCCESS` result code. -/
def XR_SUCCESS : Int := 0

/-- `XR_TIMEOUT_EXPIRED` result code. -/
def XR_TIMEOUT_EXPIRED : Int := 1

/-- `XR_SUCCEEDED(result)` is `result >= 0` (openxr.h). -/
def XR_SUCCEEDED (result : Int) : Prop := 0 ≤ result

instance (result : Int) : Decidable (XR_SUCCEEDED result) :=
  inferInstanceAs (Decidable (0 ≤ result))

/-- Result of one intercepted call: the tracked state afterwards, the
diagnostics emitted during the call (in order), and the `XrResult` returned to
the application. -/
structure Outcome where
  state : CustomSwapchainState
  diags : List String
  result : Int
deriving DecidableEq, Repr

/-- Modelled from the spec: the `NONCONFORMANT` / `NONCONFORMANT_IF` macros of
`RuntimeFailure.h` (not among the provided sources) report a violation through
the diagnostic sink and end the hook, leaving the tracked state unmodified and
returning the runtime's result unchanged ("emit violation, state unchanged";
"a detected violation is reported ... but never changes the value returned to
the caller").  `diags` is the full diagnostic list of the hook invocation up
to and including this violation. -/
def nonconformant (s : CustomSwapchainState) (diags : List String) (result : Int) : Outcome :=
  ⟨s, diags, result⟩

/-- First-population step of `xrEnumerateSwapchainImages` (Swapchain.cpp
lines 95-98): once the capacity is known, an empty `imageStates` is resized to
the reported count with every entry `Created`; a populated one is untouched. -/
def populateIfEmpty (s : CustomSwapchainState) (count : Nat) : CustomSwapchainState :=
  if s.imageStates = [] then
    { s with imageStates := List.replicate count ImageState.Created }
  else s

/-- Post-call validation of `ConformanceHooks::xrEnumerateSwapchainImages`
(Swapchain.cpp lines 80-114).  `imageCountOutput` is the count the runtime
wrote (`none` models a null output pointer, line 86); `imagesNull` records
whether the `images` array argument was null.  The graphics-validator plugin
calls of lines 104-110 run only for a non-null `images` array, inspect the
image structures only and touch no tracked state; the plugin itself is an
external per-backend component, so those calls are not modelled here. -/
def xrEnumerateSwapchainImages (s : CustomSwapchainState) (result : Int)
    (imageCountOutput : Option Nat) (imagesNull : Bool) : Outcome :=
  if XR_SUCCEEDED result then
    match imageCountOutput with
    | some count =>
      if count = 0 then
        nonconformant s ["Invalid empty image count."] result
      else if count ≠ 1 ∧ s.isStatic = true then
        nonconformant s ["Invalid image count %d for static swapchain."] result
      else if (populateIfEmpty s count).imageStates.length ≠ count then
        nonconformant (populateIfEmpty s count)
          ["Image count %d differs from previous count %d."] result
      else
        ⟨populateIfEmpty s count, [], result⟩
    | none => ⟨s, [], result⟩
  else ⟨s, [], result⟩

/-- Common tail of `ConformanceHooks::xrAcquireSwapchainImage` (Swapchain.cpp
lines 135-142): read `imageStates[*index]`, reject an image already `Acquired`
or `Waited`, reject re-acquiring a `Released` image of a static swapchain,
otherwise mark the image `Acquired` and push its index onto the acquired
queue.  The C++ access `imageStates[*index]` carries no bounds check at this
point; it is embedded with total `Option` indexing, and a `none` result marks
an out-of-bounds access.  `diags` are the diagnostics already emitted earlier
in the hook (by the implicit enumeration of line 128). -/
def acquireTail (s : CustomSwapchainState) (diags : List String) (index : Nat)
    (result : Int) : Option Outcome :=
  match s.imageStates[index]? with
  | none => none
  | some st =>
    if st = ImageState.Waited then
      some (nonconformant s (diags ++ ["Acquired image in Waited state."]) result)
    else if st = ImageState.Acquired then
      some (nonconformant s (diags ++ ["Acquired image already in Acquired state."]) result)
    else if st = ImageState.Released ∧ s.isStatic = true then
      some (nonconformant s (diags ++ ["Static image cannot be acquired again."]) result)
    else
      some ⟨⟨s.isStatic, s.imageStates.set index ImageState.Acquired,
             s.acquiredSwapchains ++ [index]⟩, diags, result⟩

/-- Continuation of `xrAcquireSwapchainImage` after the implicit enumeration
probe of Swapchain.cpp lines 124-130: `e` is the outcome of the nested
`xrEnumerateSwapchainImages` hook call (capacity 0, null images).  If the
probe's result is not a success the hook reports a violation and ends;
otherwise validation proceeds on the state the probe produced. -/
def acquireAfterProbe (e : Outcome) (index : Nat) (result : Int) : Option Outcome :=
  if XR_SUCCEEDED e.result then
    acquireTail e.state e.diags index result
  else
    some (nonconformant e.state
      (e.diags ++ ["Unable to enumerate swapchain images due to error %s"]) result)

/-- Post-call validation of `ConformanceHooks::xrAcquireSwapchainImage`
(Swapchain.cpp lines 116-145).  `index` is the image index the runtime wrote
through `*index`; `probeResult` / `probeCount` are the runtime outputs of the
implicit nested enumeration of line 128, consulted only when `imageStates` is
still empty.  With a populated `imageStates`, an out-of-range `index` is a
reported violation (line 132) that ends the hook with the state unchanged. -/
def xrAcquireSwapchainImage (s : CustomSwapchainState) (result : Int) (index : Nat)
    (probeResult : Int) (probeCount : Option Nat) : Option Outcome :=
  if XR_SUCCEEDED result then
    if s.imageStates = [] then
      acquireAfterProbe (xrEnumerateSwapchainImages s probeResult probeCount true) index result
    else if s.imageStates.length ≤ index then
      some (nonconformant s ["Out-of-bounds image index."] result)
    else
      acquireTail s [] index result
  else some ⟨s, [], result⟩

/-- Post-call validation of `ConformanceHooks::xrWaitSwapchainImage`
(Swapchain.cpp lines 147-178).  `waitDuration` is the wall-clock time measured
around the runtime call (nanoseconds, line 155); `timeout` is
`waitInfo->timeout`.  On `XR_TIMEOUT_EXPIRED` nothing is mutated and an early
return is a violation; on `XR_SUCCESS` the image at the front of the acquired
queue must be `Acquired` and becomes `Waited`, the queue itself untouched. -/
def xrWaitSwapchainImage (s : CustomSwapchainState) (result : Int)
    (waitDuration : Int) (timeout : Int) : Option Outcome :=
  if result = XR_TIMEOUT_EXPIRED then
    if waitDuration < timeout then
      some (nonconformant s ["Wait returned before timeout."] result)
    else
      some ⟨s, [], result⟩
  else if result = XR_SUCCESS then
    match s.acquiredSwapchains with
    | waitIndex :: _ =>
      match s.imageStates[waitIndex]? with
      | none => none
      | some st =>
        if st ≠ ImageState.Acquired then
          some (nonconformant s ["Wait succeeded for image in wrong state %s"] result)
        else
          some ⟨⟨s.isStatic, s.imageStates.set waitIndex ImageState.Waited,
                 s.acquiredSwapchains⟩, [], result⟩
    | [] => some (nonconformant s ["Wait succeeded with no acquired image."] result)
  else some ⟨s, [], result⟩

/-- Post-call validation of `ConformanceHooks::xrReleaseSwapchainImage`
(Swapchain.cpp lines 180-201).  On a successful result the image at the front
of the acquired queue must be `Waited`; it becomes `Released` and the front of
the queue is popped. -/
def xrReleaseSwapchainImage (s : CustomSwapchainState) (result : Int) : Option Outcome :=
  if XR_SUCCEEDED result then
    match s.acquiredSwapchains with
    | waitIndex :: rest =>
      match s.imageStates[waitIndex]? with
      | none => none
      | some st =>
        if st ≠ ImageState.Waited then
          some (nonconformant s ["Release succeeded for image in wrong state %s"] result)
        else
          some ⟨⟨s.isStatic, s.imageStates.set waitIndex ImageState.Released, rest⟩, [], result⟩
    | [] => some (nonconformant s ["Release succeeded with no acquired image."] result)
  else some ⟨s, [], result⟩

/-- Modelled from the spec: construction of `CustomSwapchainState`
(`CustomHandleState.h`, not among the provided sources).  The tracked state is
created atomically with a successful swapchain creation; `isStatic` records
the static-image flag of the creation parameters; the image-state vector and
the acquired queue start empty ("`imageStates.size()` is 0 until first
enumeration call"). -/
def initialSwapchainState (isStaticFlag : Bool) : CustomSwapchainState :=
  ⟨isStaticFlag, [], []⟩

/-- Post-call behaviour of `ConformanceHooks::xrCreateSwapchain`
(Swapchain.cpp lines 67-78): on success a fresh custom state is attached to
the new handle; the runtime's result is returned unchanged. -/
def xrCreateSwapchain (result : Int) (isStaticFlag : Bool) :
    Option CustomSwapchainState × Int :=
  (if XR_SUCCEEDED result then some (initialSwapchainState isStaticFlag) else none, result)

/-- One intercepted swapchain call together with the runtime-produced values
observed during it. -/
inductive SwapchainOp where
  | enumerate (result : Int) (imageCountOutput : Option Nat) (imagesNull : Bool)
  | acquire (result : Int) (index : Nat) (probeResult : Int) (probeCount : Option Nat)
  | wait (result : Int) (waitDuration : Int) (timeout : Int)
  | release (result : Int)
deriving DecidableEq, Repr

/-- Dispatch one intercepted call on the tracked state. -/
def applyOp (s : CustomSwapchainState) : SwapchainOp → Option Outcome
  | SwapchainOp.enumerate result count imagesNull =>
      some (xrEnumerateSwapchainImages s result count imagesNull)
  | SwapchainOp.acquire result index probeResult probeCount =>
      xrAcquireSwapchainImage s result index probeResult probeCount
  | SwapchainOp.wait result waitDuration timeout =>
      xrWaitSwapchainImage s result waitDuration timeout
  | SwapchainOp.release result => xrReleaseSwapchainImage s result

/-- Run a sequence of intercepted calls, tracking the state; `none` when some
call performed an out-of-bounds access. -/
def runTrace (s : CustomSwapchainState) : List SwapchainOp → Option CustomSwapchainState
  | [] => some s
  | op :: ops =>
    match applyOp s op with
    | none => none
    | some o => runTrace o.state ops

end OpenXRConformance
section Lemmas

namespace OpenXRConformance

theorem populateIfEmpty_of_ne_nil (s : CustomSwapchainState) (c : Nat)
    (h : s.imageStates ≠ []) : populateIfEmpty s c = s := by
  unfold populateIfEmpty
  rw [if_neg h]

theorem populateIfEmpty_of_nil (s : CustomSwapchainState) (c : Nat)
    (h : s.imageStates = []) :
    populateIfEmpty s c =
      ⟨s.isStatic, List.replicate c ImageState.Created, s.acquiredSwapchains⟩ := by
  unfold populateIfEmpty
  rw [if_pos h]

theorem enum_result_eq (s : CustomSwapchainState) (r : Int) (c : Option Nat) (b : Bool) :
    (xrEnumerateSwapchainImages s r c b).result = r := by
  unfold xrEnumerateSwapchainImages nonconformant
  split
  · split
    · split
      · rfl
      · split
        · rfl
        · split <;> rfl
    · rfl
  · rfl

theorem enum_of_not_succeeded (s : CustomSwapchainState) (r : Int) (c : Option Nat) (b : Bool)
    (h : ¬ XR_SUCCEEDED r) : xrEnumerateSwapchainImages s r c b = ⟨s, [], r⟩ := by
  unfold xrEnumerateSwapchainImages
  rw [if_neg h]

theorem enum_of_none (s : CustomSwapchainState) (r : Int) (b : Bool) :
    xrEnumerateSwapchainImages s r none b = ⟨s, [], r⟩ := by
  unfold xrEnumerateSwapchainImages
  split <;> rfl

theorem enum_of_zero (s : CustomSwapchainState) (r : Int) (b : Bool) (h : XR_SUCCEEDED r) :
    xrEnumerateSwapchainImages s r (some 0) b =
      ⟨s, ["Invalid empty image count."], r⟩ := by
  unfold xrEnumerateSwapchainImages
  rw [if_pos h]
  rfl

theorem enum_of_static_bad (s : CustomSwapchainState) (r : Int) (c : Nat) (b : Bool)
    (h : XR_SUCCEEDED r) (h0 : c ≠ 0) (h1 : c ≠ 1) (hs : s.isStatic = true) :
    xrEnumerateSwapchainImages s r (some c) b =
      ⟨s, ["Invalid image count %d for static swapchain."], r⟩ := by
  unfold xrEnumerateSwapchainImages
  rw [if_pos h]
  show (if c = 0 then _ else _) = _
  rw [if_neg h0, if_pos ⟨h1, hs⟩]
  rfl

theorem enum_of_plain_mismatch (s : CustomSwapchainState) (r : Int) (c : Nat) (b : Bool)
    (h : XR_SUCCEEDED r) (h0 : c ≠ 0) (hsb : ¬(c ≠ 1 ∧ s.isStatic = true))
    (hlen : (populateIfEmpty s c).imageStates.length ≠ c) :
    xrEnumerateSwapchainImages s r (some c) b =
      ⟨populateIfEmpty s c, ["Image count %d differs from previous count %d."], r⟩ := by
  unfold xrEnumerateSwapchainImages
  rw [if_pos h]
  show (if c = 0 then _ else _) = _
  rw [if_neg h0, if_neg hsb, if_pos hlen]
  rfl

theorem enum_populate (s : CustomSwapchainState) (r : Int) (c : Nat) (b : Bool)
    (h : XR_SUCCEEDED r) (hnil : s.imageStates = []) (h0 : c ≠ 0)
    (h1 : s.isStatic = true → c = 1) :
    xrEnumerateSwapchainImages s r (some c) b =
      ⟨⟨s.isStatic, List.replicate c ImageState.Created, s.acquiredSwapchains⟩, [], r⟩ := by
  unfold xrEnumerateSwapchainImages
  rw [if_pos h]
  show (if c = 0 then _ else _) = _
  rw [if_neg h0]
  rw [if_neg (by rintro ⟨hc1, hst⟩; exact hc1 (h1 hst))]
  rw [populateIfEmpty_of_nil s c hnil]
  rw [if_neg (by simp)]

theorem enum_of_match (s : CustomSwapchainState) (r : Int) (c : Nat) (b : Bool)
    (h : XR_SUCCEEDED r) (hlen : s.imageStates.length = c) (h0 : c ≠ 0)
    (h1 : s.isStatic = true → c = 1) :
    xrEnumerateSwapchainImages s r (some c) b = ⟨s, [], r⟩ := by
  have hnil : s.imageStates ≠ [] := by
    intro hn
    rw [hn] at hlen
    exact h0 hlen.symm
  unfold xrEnumerateSwapchainImages
  rw [if_pos h]
  show (if c = 0 then _ else _) = _
  rw [if_neg h0]
  rw [if_neg (by rintro ⟨hc1, hst⟩; exact hc1 (h1 hst))]
  rw [populateIfEmpty_of_ne_nil s c hnil]
  rw [if_neg (by rw [hlen]; simp)]

theorem enum_of_mismatch (s : CustomSwapchainState) (r : Int) (c : Nat) (b : Bool)
    (h : XR_SUCCEEDED r) (hnil : s.imageStates ≠ []) (hne : c ≠ s.imageStates.length) :
    (xrEnumerateSwapchainImages s r (some c) b).state = s ∧
      (xrEnumerateSwapchainImages s r (some c) b).diags ≠ [] := by
  by_cases h0 : c = 0
  · subst h0
    rw [enum_of_zero s r b h]
    exact ⟨rfl, by simp⟩
  · by_cases hsb : c ≠ 1 ∧ s.isStatic = true
    · rw [enum_of_static_bad s r c b h h0 hsb.1 hsb.2]
      exact ⟨rfl, by simp⟩
    · rw [enum_of_plain_mismatch s r c b h h0 hsb
        (by rw [populateIfEmpty_of_ne_nil s c hnil]; exact fun hl => hne hl.symm)]
      rw [populateIfEmpty_of_ne_nil s c hnil]
      exact ⟨rfl, by simp⟩

theorem enum_state_of_some_ne_nil (s : CustomSwapchainState) (r : Int) (n : Nat) (b : Bool)
    (h : XR_SUCCEEDED r) (hnil : ¬s.imageStates = []) :
    (xrEnumerateSwapchainImages s r (some n) b).state = s := by
  by_cases h0 : n = 0
  · subst h0; rw [enum_of_zero s r b h]
  · by_cases hsb : n ≠ 1 ∧ s.isStatic = true
    · rw [enum_of_static_bad s r n b h h0 hsb.1 hsb.2]
    · by_cases hlen : s.imageStates.length = n
      · rw [enum_of_match s r n b h hlen h0 (fun hst => by
          by_contra hn1
          exact hsb ⟨hn1, hst⟩)]
      · exact (enum_of_mismatch s r n b h hnil (fun hc => hlen hc.symm)).1

theorem enum_state_or (s : CustomSwapchainState) (r : Int) (c : Option Nat) (b : Bool) :
    (xrEnumerateSwapchainImages s r c b).state = s ∨
      (s.imageStates = [] ∧ ∃ n, c = some n ∧ n ≠ 0 ∧ (s.isStatic = true → n = 1) ∧
        (xrEnumerateSwapchainImages s r c b).state =
          ⟨s.isStatic, List.replicate n ImageState.Created, s.acquiredSwapchains⟩) := by
  by_cases h : XR_SUCCEEDED r
  · cases c with
    | none => left; rw [enum_of_none]
    | some n =>
      by_cases hnil : s.imageStates = []
      · by_cases h0 : n = 0
        · left; subst h0; rw [enum_of_zero s r b h]
        · by_cases h1 : s.isStatic = true → n = 1
          · right
            exact ⟨hnil, n, rfl, h0, h1, by rw [enum_populate s r n b h hnil h0 h1]⟩
          · left
            push_neg at h1
            rw [enum_of_static_bad s r n b h h0 h1.2 h1.1]
      · left
        exact enum_state_of_some_ne_nil s r n b h hnil
  · left; rw [enum_of_not_succeeded s r c b h]

theorem enum_state_of_ne_nil (s : CustomSwapchainState) (r : Int) (c : Option Nat) (b : Bool)
    (hnil : s.imageStates ≠ []) : (xrEnumerateSwapchainImages s r c b).state = s := by
  rcases enum_state_or s r c b with h | ⟨h, _⟩
  · exact h
  · exact absurd h hnil

end OpenXRConformance

end Lemmas
section AcquireLemmas

namespace OpenXRConformance

theorem acquireTail_of_none (s : CustomSwapchainState) (d : List String) (i : Nat) (r : Int)
    (h : s.imageStates[i]? = none) : acquireTail s d i r = none := by
  unfold acquireTail
  rw [h]

theorem acquireTail_of_waited (s : CustomSwapchainState) (d : List String) (i : Nat) (r : Int)
    (h : s.imageStates[i]? = some ImageState.Waited) :
    acquireTail s d i r = some ⟨s, d ++ ["Acquired image in Waited state."], r⟩ := by
  unfold acquireTail
  rw [h]
  rfl

theorem acquireTail_of_acquired (s : CustomSwapchainState) (d : List String) (i : Nat) (r : Int)
    (h : s.imageStates[i]? = some ImageState.Acquired) :
    acquireTail s d i r = some ⟨s, d ++ ["Acquired image already in Acquired state."], r⟩ := by
  unfold acquireTail
  rw [h]
  rfl

theorem acquireTail_of_released_static (s : CustomSwapchainState) (d : List String) (i : Nat)
    (r : Int) (h : s.imageStates[i]? = some ImageState.Released) (hs : s.isStatic = true) :
    acquireTail s d i r = some ⟨s, d ++ ["Static image cannot be acquired again."], r⟩ := by
  unfold acquireTail
  rw [h]
  show (if _ then _ else _) = _
  rw [if_neg (by simp), if_neg (by simp), if_pos ⟨rfl, hs⟩]
  rfl

theorem acquireTail_of_ok (s : CustomSwapchainState) (d : List String) (i : Nat) (r : Int)
    (st : ImageState) (h : s.imageStates[i]? = some st)
    (hw : st ≠ ImageState.Waited) (ha : st ≠ ImageState.Acquired)
    (hr : ¬(st = ImageState.Released ∧ s.isStatic = true)) :
    acquireTail s d i r =
      some ⟨⟨s.isStatic, s.imageStates.set i ImageState.Acquired,
             s.acquiredSwapchains ++ [i]⟩, d, r⟩ := by
  unfold acquireTail
  rw [h]
  show (if _ then _ else _) = _
  rw [if_neg hw, if_neg ha, if_neg hr]

theorem acquireTail_some_state (s : CustomSwapchainState) (d : List String) (i : Nat) (r : Int)
    (o : Outcome) (h : acquireTail s d i r = some o) :
    o.state = s ∨
      o.state = ⟨s.isStatic, s.imageStates.set i ImageState.Acquired,
                 s.acquiredSwapchains ++ [i]⟩ := by
  cases hget : s.imageStates[i]? with
  | none => rw [acquireTail_of_none s d i r hget] at h; exact absurd h (by simp)
  | some st =>
    cases st with
    | Waited => rw [acquireTail_of_waited s d i r hget] at h
                left; rw [← Option.some_inj.mp h]
    | Acquired => rw [acquireTail_of_acquired s d i r hget] at h
                  left; rw [← Option.some_inj.mp h]
    | Created =>
        rw [acquireTail_of_ok s d i r ImageState.Created hget (by simp) (by simp)
          (by simp)] at h
        right; rw [← Option.some_inj.mp h]
    | Released =>
        by_cases hs : s.isStatic = true
        · rw [acquireTail_of_released_static s d i r hget hs] at h
          left; rw [← Option.some_inj.mp h]
        · rw [acquireTail_of_ok s d i r ImageState.Released hget (by simp) (by simp)
            (fun hc => hs hc.2)] at h
          right; rw [← Option.some_inj.mp h]

theorem acquireTail_result (s : CustomSwapchainState) (d : List String) (i : Nat) (r : Int)
    (o : Outcome) (h : acquireTail s d i r = some o) : o.result = r := by
  unfold acquireTail nonconformant at h
  split at h
  · exact absurd h (by simp)
  · split at h
    · simp only [Option.some_inj] at h
      rw [← h]
    · split at h
      · simp only [Option.some_inj] at h
        rw [← h]
      · split at h
        · simp only [Option.some_inj] at h
          rw [← h]
        · simp only [Option.some_inj] at h
          rw [← h]

theorem acquire_of_not_succeeded (s : CustomSwapchainState) (r : Int) (i : Nat)
    (pr : Int) (pc : Option Nat) (h : ¬ XR_SUCCEEDED r) :
    xrAcquireSwapchainImage s r i pr pc = some ⟨s, [], r⟩ := by
  unfold xrAcquireSwapchainImage
  rw [if_neg h]

theorem acquire_of_nil (s : CustomSwapchainState) (r : Int) (i : Nat)
    (pr : Int) (pc : Option Nat) (h : XR_SUCCEEDED r) (hnil : s.imageStates = []) :
    xrAcquireSwapchainImage s r i pr pc =
      acquireAfterProbe (xrEnumerateSwapchainImages s pr pc true) i r := by
  unfold xrAcquireSwapchainImage
  rw [if_pos h, if_pos hnil]

theorem acquire_of_oob (s : CustomSwapchainState) (r : Int) (i : Nat)
    (pr : Int) (pc : Option Nat) (h : XR_SUCCEEDED r) (hnil : s.imageStates ≠ [])
    (hi : s.imageStates.length ≤ i) :
    xrAcquireSwapchainImage s r i pr pc = some ⟨s, ["Out-of-bounds image index."], r⟩ := by
  unfold xrAcquireSwapchainImage
  rw [if_pos h, if_neg hnil, if_pos hi]
  rfl

theorem acquire_of_inbounds (s : CustomSwapchainState) (r : Int) (i : Nat)
    (pr : Int) (pc : Option Nat) (h : XR_SUCCEEDED r) (hnil : s.imageStates ≠ [])
    (hi : i < s.imageStates.length) :
    xrAcquireSwapchainImage s r i pr pc = acquireTail s [] i r := by
  unfold xrAcquireSwapchainImage
  rw [if_pos h, if_neg hnil, if_neg (by omega)]

end OpenXRConformance

end AcquireLemmas
section PreservationLemmas

namespace OpenXRConformance

theorem acquire_some_pres (s : CustomSwapchainState) (r : Int) (i : Nat) (pr : Int)
    (pc : Option Nat) (o : Outcome) (h : xrAcquireSwapchainImage s r i pr pc = some o) :
    o.state.isStatic = s.isStatic ∧
      (s.imageStates ≠ [] → o.state.imageStates.length = s.imageStates.length) ∧
      (s.imageStates = [] → (o.state.imageStates = [] ∨
        ∃ n, pc = some n ∧ o.state.imageStates.length = n ∧ n ≠ 0 ∧
          (s.isStatic = true → n = 1))) := by
  by_cases hr : XR_SUCCEEDED r
  · by_cases hnil : s.imageStates = []
    · rw [acquire_of_nil s r i pr pc hr hnil] at h
      unfold acquireAfterProbe at h
      rcases enum_state_or s pr pc true with hes | ⟨-, n, hpc, hn0, hn1, hes⟩
      · split at h
        · rw [hes] at h
          rw [acquireTail_of_none _ _ i r (by rw [hnil]; simp)] at h
          exact absurd h (by simp)
        · simp only [Option.some_inj] at h
          rw [← h, nonconformant, hes, hnil]
          exact ⟨rfl, fun hc => absurd rfl hc, fun _ => Or.inl rfl⟩
      · split at h
        · rcases acquireTail_some_state _ _ i r o h with hos | hos <;>
          · rw [hos, hes]
            refine ⟨rfl, fun hc => absurd hnil hc, fun _ => Or.inr ⟨n, hpc, ?_, hn0, hn1⟩⟩
            simp [List.length_set, List.length_replicate]
        · simp only [Option.some_inj] at h
          rw [← h, nonconformant, hes]
          exact ⟨rfl, fun hc => absurd hnil hc,
            fun _ => Or.inr ⟨n, hpc, by simp [List.length_replicate], hn0, hn1⟩⟩
    · by_cases hi : s.imageStates.length ≤ i
      · rw [acquire_of_oob s r i pr pc hr hnil hi] at h
        simp only [Option.some_inj] at h
        rw [← h]
        exact ⟨rfl, fun _ => rfl, fun hc => absurd hc hnil⟩
      · rw [acquire_of_inbounds s r i pr pc hr hnil (by omega)] at h
        rcases acquireTail_some_state s [] i r o h with hos | hos <;>
          rw [hos]
        · exact ⟨rfl, fun _ => rfl, fun hc => absurd hc hnil⟩
        · exact ⟨rfl, fun _ => by simp [List.length_set], fun hc => absurd hc hnil⟩
  · rw [acquire_of_not_succeeded s r i pr pc hr] at h
    simp only [Option.some_inj] at h
    rw [← h]
    exact ⟨rfl, fun _ => rfl, fun hc => Or.inl hc⟩

theorem wait_some_pres (s : CustomSwapchainState) (r : Int) (d t : Int) (o : Outcome)
    (h : xrWaitSwapchainImage s r d t = some o) :
    o.state.isStatic = s.isStatic ∧
      o.state.imageStates.length = s.imageStates.length ∧
      o.state.acquiredSwapchains = s.acquiredSwapchains := by
  unfold xrWaitSwapchainImage nonconformant at h
  split at h
  · split at h <;>
    · simp only [Option.some_inj] at h
      rw [← h]
      exact ⟨rfl, rfl, rfl⟩
  · split at h
    · split at h
      · split at h
        · exact absurd h (by simp)
        · split at h
          · simp only [Option.some_inj] at h
            rw [← h]
            exact ⟨rfl, rfl, rfl⟩
          · simp only [Option.some_inj] at h
            rw [← h]
            exact ⟨rfl, by simp [List.length_set], rfl⟩
      · simp only [Option.some_inj] at h
        rw [← h]
        exact ⟨rfl, rfl, rfl⟩
    · simp only [Option.some_inj] at h
      rw [← h]
      exact ⟨rfl, rfl, rfl⟩

theorem release_some_pres (s : CustomSwapchainState) (r : Int) (o : Outcome)
    (h : xrReleaseSwapchainImage s r = some o) :
    o.state.isStatic = s.isStatic ∧
      o.state.imageStates.length = s.imageStates.length := by
  unfold xrReleaseSwapchainImage nonconformant at h
  split at h
  · split at h
    · split at h
      · exact absurd h (by simp)
      · split at h
        · simp only [Option.some_inj] at h
          rw [← h]
          exact ⟨rfl, rfl⟩
        · simp only [Option.some_inj] at h
          rw [← h]
          exact ⟨rfl, by simp [List.length_set]⟩
    · simp only [Option.some_inj] at h
      rw [← h]
      exact ⟨rfl, rfl⟩
  · simp only [Option.some_inj] at h
    rw [← h]
    exact ⟨rfl, rfl⟩

theorem applyOp_pres (s : CustomSwapchainState) (op : SwapchainOp) (o : Outcome)
    (h : applyOp s op = some o) :
    o.state.isStatic = s.isStatic ∧
      (s.imageStates ≠ [] → o.state.imageStates.length = s.imageStates.length) ∧
      (s.isStatic = true → s.imageStates.length ≤ 1 → o.state.imageStates.length ≤ 1) := by
  cases op with
  | enumerate er ec eb =>
    simp only [applyOp, Option.some_inj] at h
    rw [← h]
    rcases enum_state_or s er ec eb with hes | ⟨hnil, n, -, -, hn1, hes⟩
    · rw [hes]
      exact ⟨rfl, fun _ => rfl, fun _ hl => hl⟩
    · rw [hes]
      refine ⟨rfl, fun hc => absurd hnil hc, fun hst _ => ?_⟩
      simp [List.length_replicate, hn1 hst]
  | acquire ar ai apr apc =>
    obtain ⟨h1, h2, h3⟩ := acquire_some_pres s ar ai apr apc o h
    refine ⟨h1, h2, fun hst hl => ?_⟩
    by_cases hnil : s.imageStates = []
    · rcases h3 hnil with hc | ⟨n, -, hlen, -, hn1⟩
      · simp [hc]
      · rw [hlen, hn1 hst]
    · rw [h2 hnil]
      exact hl
  | wait wr wd wt =>
    obtain ⟨h1, h2, -⟩ := wait_some_pres s wr wd wt o h
    exact ⟨h1, fun _ => h2, fun _ hl => h2 ▸ hl⟩
  | release rr =>
    obtain ⟨h1, h2⟩ := release_some_pres s rr o h
    exact ⟨h1, fun _ => h2, fun _ hl => h2 ▸ hl⟩

theorem runTrace_pres (ops : List SwapchainOp) (s s' : CustomSwapchainState)
    (h : runTrace s ops = some s') :
    s'.isStatic = s.isStatic ∧
      (s.imageStates ≠ [] → s'.imageStates.length = s.imageStates.length) ∧
      (s.isStatic = true → s.imageStates.length ≤ 1 → s'.imageStates.length ≤ 1) := by
  induction ops generalizing s with
  | nil =>
    simp only [runTrace, Option.some_inj] at h
    rw [← h]
    exact ⟨rfl, fun _ => rfl, fun _ hl => hl⟩
  | cons op ops ih =>
    simp only [runTrace] at h
    split at h
    · exact absurd h (by simp)
    · rename_i o ho
      obtain ⟨p1, p2, p3⟩ := applyOp_pres s op o ho
      obtain ⟨q1, q2, q3⟩ := ih o.state h
      refine ⟨q1.trans p1, fun hnil => ?_, fun hst hl => ?_⟩
      · have hlen := p2 hnil
        have honil : o.state.imageStates ≠ [] := by
          intro hc
          rw [hc] at hlen
          exact hnil (List.length_eq_zero.mp hlen.symm)
        rw [q2 honil, hlen]
      · exact q3 (p1.symm ▸ hst) (p3 hst hl)

end OpenXRConformance

end PreservationLemmas
section ResultLemmas

namespace OpenXRConformance

theorem acquire_some_result (s : CustomSwapchainState) (r : Int) (i : Nat) (pr : Int)
    (pc : Option Nat) (o : Outcome) (h : xrAcquireSwapchainImage s r i pr pc = some o) :
    o.result = r := by
  by_cases hr : XR_SUCCEEDED r
  · by_cases hnil : s.imageStates = []
    · rw [acquire_of_nil s r i pr pc hr hnil] at h
      unfold acquireAfterProbe at h
      split at h
      · exact acquireTail_result _ _ i r o h
      · simp only [Option.some_inj] at h
        rw [← h]
        rfl
    · by_cases hi : s.imageStates.length ≤ i
      · rw [acquire_of_oob s r i pr pc hr hnil hi] at h
        simp only [Option.some_inj] at h
        rw [← h]
      · rw [acquire_of_inbounds s r i pr pc hr hnil (by omega)] at h
        exact acquireTail_result s [] i r o h
  · rw [acquire_of_not_succeeded s r i pr pc hr] at h
    simp only [Option.some_inj] at h
    rw [← h]

theorem wait_some_result (s : CustomSwapchainState) (r : Int) (d t : Int) (o : Outcome)
    (h : xrWaitSwapchainImage s r d t = some o) : o.result = r := by
  unfold xrWaitSwapchainImage nonconformant at h
  split at h
  · split at h <;>
    · simp only [Option.some_inj] at h
      rw [← h]
  · split at h
    · split at h
      · split at h
        · exact absurd h (by simp)
        · split at h <;>
          · simp only [Option.some_inj] at h
            rw [← h]
      · simp only [Option.some_inj] at h
        rw [← h]
    · simp only [Option.some_inj] at h
      rw [← h]

theorem release_some_result (s : CustomSwapchainState) (r : Int) (o : Outcome)
    (h : xrReleaseSwapchainImage s r = some o) : o.result = r := by
  unfold xrReleaseSwapchainImage nonconformant at h
  split at h
  · split at h
    · split at h
      · exact absurd h (by simp)
      · split at h <;>
        · simp only [Option.some_inj] at h
          rw [← h]
    · simp only [Option.some_inj] at h
      rw [← h]
  · simp only [Option.some_inj] at h
    rw [← h]

theorem wait_success_of_nil (s : CustomSwapchainState) (d t : Int)
    (h : s.acquiredSwapchains = []) :
    xrWaitSwapchainImage s XR_SUCCESS d t =
      some ⟨s, ["Wait succeeded with no acquired image."], XR_SUCCESS⟩ := by
  unfold xrWaitSwapchainImage
  rw [if_neg (by decide), if_pos rfl, h]
  rfl

theorem wait_success_of_acquired (s : CustomSwapchainState) (d t : Int) (i : Nat)
    (rest : List Nat) (h : s.acquiredSwapchains = i :: rest)
    (hget : s.imageStates[i]? = some ImageState.Acquired) :
    xrWaitSwapchainImage s XR_SUCCESS d t =
      some ⟨⟨s.isStatic, s.imageStates.set i ImageState.Waited, s.acquiredSwapchains⟩,
            [], XR_SUCCESS⟩ := by
  unfold xrWaitSwapchainImage
  rw [if_neg (by decide), if_pos rfl, h]
  show (match s.imageStates[i]? with | none => _ | some st => _) = _
  rw [hget]
  show (if _ then _ else _) = _
  rw [if_neg (by simp)]

theorem wait_success_of_wrong_state (s : CustomSwapchainState) (d t : Int) (i : Nat)
    (rest : List Nat) (st : ImageState) (h : s.acquiredSwapchains = i :: rest)
    (hget : s.imageStates[i]? = some st) (hst : st ≠ ImageState.Acquired) :
    xrWaitSwapchainImage s XR_SUCCESS d t =
      some ⟨s, ["Wait succeeded for image in wrong state %s"], XR_SUCCESS⟩ := by
  unfold xrWaitSwapchainImage
  rw [if_neg (by decide), if_pos rfl, h]
  show (match s.imageStates[i]? with | none => _ | some st => _) = _
  rw [hget]
  show (if _ then _ else _) = _
  rw [if_pos hst]
  rfl

theorem wait_timeout_eq (s : CustomSwapchainState) (d t : Int) :
    xrWaitSwapchainImage s XR_TIMEOUT_EXPIRED d t =
      some ⟨s, if d < t then ["Wait returned before timeout."] else [], XR_TIMEOUT_EXPIRED⟩ := by
  unfold xrWaitSwapchainImage
  rw [if_pos rfl]
  by_cases hd : d < t
  · rw [if_pos hd, if_pos hd]
    rfl
  · rw [if_neg hd, if_neg hd]

theorem release_success_of_nil (s : CustomSwapchainState) (r : Int) (hr : XR_SUCCEEDED r)
    (h : s.acquiredSwapchains = []) :
    xrReleaseSwapchainImage s r =
      some ⟨s, ["Release succeeded with no acquired image."], r⟩ := by
  unfold xrReleaseSwapchainImage
  rw [if_pos hr, h]
  rfl

theorem release_success_of_waited (s : CustomSwapchainState) (r : Int) (i : Nat)
    (rest : List Nat) (hr : XR_SUCCEEDED r) (h : s.acquiredSwapchains = i :: rest)
    (hget : s.imageStates[i]? = some ImageState.Waited) :
    xrReleaseSwapchainImage s r =
      some ⟨⟨s.isStatic, s.imageStates.set i ImageState.Released, rest⟩, [], r⟩ := by
  unfold xrReleaseSwapchainImage
  rw [if_pos hr, h]
  show (match s.imageStates[i]? with | none => _ | some st => _) = _
  rw [hget]
  show (if _ then _ else _) = _
  rw [if_neg (by simp)]

theorem release_success_of_wrong_state (s : CustomSwapchainState) (r : Int) (i : Nat)
    (rest : List Nat) (st : ImageState) (hr : XR_SUCCEEDED r)
    (h : s.acquiredSwapchains = i :: rest) (hget : s.imageStates[i]? = some st)
    (hst : st ≠ ImageState.Waited) :
    xrReleaseSwapchainImage s r =
      some ⟨s, ["Release succeeded for image in wrong state %s"], r⟩ := by
  unfold xrReleaseSwapchainImage
  rw [if_pos hr, h]
  show (match s.imageStates[i]? with | none => _ | some st => _) = _
  rw [hget]
  show (if _ then _ else _) = _
  rw [if_pos hst]
  rfl

theorem enum_diags_of_static_ne_one (s : CustomSwapchainState) (r : Int) (c : Nat) (b : Bool)
    (h : XR_SUCCEEDED r) (hs : s.isStatic = true) (hc : c ≠ 1) :
    (xrEnumerateSwapchainImages s r (some c) b).diags ≠ [] := by
  by_cases h0 : c = 0
  · subst h0
    rw [enum_of_zero s r b h]
    simp
  · rw [enum_of_static_bad s r c b h h0 hc hs]
    simp

end OpenXRConformance

end ResultLemmas
section ClaimHelpers

namespace OpenXRConformance

theorem wait_success_of_none_get (s : CustomSwapchainState) (d t : Int) (i : Nat)
    (rest : List Nat) (h : s.acquiredSwapchains = i :: rest)
    (hget : s.imageStates[i]? = none) :
    xrWaitSwapchainImage s XR_SUCCESS d t = none := by
  unfold xrWaitSwapchainImage
  rw [if_neg (by decide), if_pos rfl, h]
  show (match s.imageStates[i]? with | none => _ | some st => _) = _
  rw [hget]

theorem release_success_of_none_get (s : CustomSwapchainState) (r : Int) (i : Nat)
    (rest : List Nat) (hr : XR_SUCCEEDED r) (h : s.acquiredSwapchains = i :: rest)
    (hget : s.imageStates[i]? = none) :
    xrReleaseSwapchainImage s r = none := by
  unfold xrReleaseSwapchainImage
  rw [if_pos hr, h]
  show (match s.imageStates[i]? with | none => _ | some st => _) = _
  rw [hget]

theorem lt_length_of_getElem?_ne_none {l : List ImageState} {i : Nat}
    (hget : l[i]? ≠ none) : i < l.length := by
  by_contra hle
  exact hget (List.getElem?_eq_none (by omega))

end OpenXRConformance

end ClaimHelpers

section Claims

namespace OpenXRConformance

/-- C1: whenever the runtime reports a successful `xrAcquireSwapchainImage` but
the Acquire precondition fails on the tracked state (the target image is
`Acquired` or `Waited`, or it is `Released` and the swapchain is static), the
hook emits exactly one violation and leaves the tracked state unchanged: the
image state stays what it was and nothing is pushed onto the acquired queue.
In the static case the diagnostic is "Static image cannot be acquired
again." and the image stays `Released`. -/
theorem acquire_precondition_violation_unchanged :
    ∀ (s : CustomSwapchainState) (r pr : Int) (pc : Option Nat) (i : Nat) (st : ImageState),
      XR_SUCCEEDED r → s.imageStates[i]? = some st →
      ((st = ImageState.Acquired ∨ st = ImageState.Waited ∨
          (st = ImageState.Released ∧ s.isStatic = true)) →
        ∃ msg, xrAcquireSwapchainImage s r i pr pc = some ⟨s, [msg], r⟩) ∧
      (st = ImageState.Released → s.isStatic = true →
        xrAcquireSwapchainImage s r i pr pc =
          some ⟨s, ["Static image cannot be acquired again."], r⟩) := by
  intro s r pr pc i st hr hget
  have hi : i < s.imageStates.length :=
    lt_length_of_getElem?_ne_none (by rw [hget]; simp)
  have hnil : s.imageStates ≠ [] := by
    intro hc
    rw [hc] at hi
    exact absurd hi (by simp)
  rw [acquire_of_inbounds s r i pr pc hr hnil hi]
  constructor
  · rintro (hst | hst | ⟨hst, hstat⟩)
    · subst hst
      exact ⟨_, by rw [acquireTail_of_acquired s [] i r hget]; rfl⟩
    · subst hst
      exact ⟨_, by rw [acquireTail_of_waited s [] i r hget]; rfl⟩
    · subst hst
      exact ⟨_, by rw [acquireTail_of_released_static s [] i r hget hstat]; rfl⟩
  · intro hst hstat
    subst hst
    rw [acquireTail_of_released_static s [] i r hget hstat]
    rfl

theorem acquire_precondition_violation_unchanged_witness :
    (XR_SUCCEEDED 0 ∧
      ([ImageState.Released])[0]? = some ImageState.Released) ∧
    xrAcquireSwapchainImage ⟨true, [ImageState.Released], []⟩ 0 0 0 none =
      some ⟨⟨true, [ImageState.Released], []⟩,
            ["Static image cannot be acquired again."], 0⟩ :=
  ⟨⟨by decide, by decide⟩,
   (acquire_precondition_violation_unchanged ⟨true, [ImageState.Released], []⟩ 0 0 none 0
      ImageState.Released (by decide) (by decide)).2 rfl rfl⟩

/-- C2: every intercepted swapchain entry point returns to the caller exactly
the `XrResult` produced by the underlying runtime call, whether or not a
violation was detected. -/
theorem intercepted_result_passthrough :
    ∀ (s : CustomSwapchainState) (r : Int) (bst : Bool) (c : Option Nat) (inull : Bool)
      (i : Nat) (pr : Int) (pc : Option Nat) (d t : Int) (o : Outcome),
      ((xrCreateSwapchain r bst).2 = r) ∧
      ((xrEnumerateSwapchainImages s r c inull).result = r) ∧
      (xrAcquireSwapchainImage s r i pr pc = some o → o.result = r) ∧
      (xrWaitSwapchainImage s r d t = some o → o.result = r) ∧
      (xrReleaseSwapchainImage s r = some o → o.result = r) :=
  fun s r _ c inull i pr pc d t o =>
    ⟨rfl, enum_result_eq s r c inull, acquire_some_result s r i pr pc o,
     wait_some_result s r d t o, release_some_result s r o⟩

theorem intercepted_result_passthrough_witness :
    xrWaitSwapchainImage (initialSwapchainState false) 1 5 3 =
      some ⟨initialSwapchainState false, [], 1⟩ ∧
    Outcome.result ⟨initialSwapchainState false, [], 1⟩ = 1 :=
  ⟨by decide,
   (intercepted_result_passthrough (initialSwapchainState false) 1 false none true 0 0 none 5 3
      ⟨initialSwapchainState false, [], 1⟩).2.2.2.1 (by decide)⟩

/-- C3: `imageStates` starts empty; the population performed by a successful
enumeration from the empty state sets it to `replicate count Created`; no
operation changes its length once it is non-empty (waits and releases never
change it at all, and an acquire from the empty state either leaves it empty
or lets the implicit enumeration size it to the probe's reported count); a
subsequent successful enumeration reporting a different count raises a
diagnostic and mutates nothing. -/
theorem imageStates_size_fixed :
    ∀ (bst : Bool) (s : CustomSwapchainState) (op : SwapchainOp) (o : Outcome) (r : Int)
      (c : Nat) (inull : Bool) (i : Nat) (pr : Int) (pc : Option Nat) (d t : Int)
      (ops : List SwapchainOp) (s' : CustomSwapchainState),
      ((initialSwapchainState bst).imageStates.length = 0) ∧
      (applyOp s op = some o → s.imageStates ≠ [] →
        o.state.imageStates.length = s.imageStates.length) ∧
      (s.imageStates = [] → XR_SUCCEEDED r →
        (xrEnumerateSwapchainImages s r (some c) inull).state.imageStates ≠ [] →
        (xrEnumerateSwapchainImages s r (some c) inull).state.imageStates =
          List.replicate c ImageState.Created) ∧
      (xrWaitSwapchainImage s r d t = some o →
        o.state.imageStates.length = s.imageStates.length) ∧
      (xrReleaseSwapchainImage s r = some o →
        o.state.imageStates.length = s.imageStates.length) ∧
      (xrAcquireSwapchainImage s r i pr pc = some o → s.imageStates = [] →
        (o.state.imageStates = [] ∨ ∃ n, pc = some n ∧ o.state.imageStates.length = n)) ∧
      (s.imageStates ≠ [] → XR_SUCCEEDED r → c ≠ s.imageStates.length →
        (xrEnumerateSwapchainImages s r (some c) inull).state = s ∧
        (xrEnumerateSwapchainImages s r (some c) inull).diags ≠ []) ∧
      (runTrace s ops = some s' → s.imageStates ≠ [] →
        s'.imageStates.length = s.imageStates.length) := by
  intro bst s op o r c inull i pr pc d t ops s'
  refine ⟨rfl, ?_, ?_, ?_, ?_, ?_, ?_, ?_⟩
  · intro h hnil
    exact (applyOp_pres s op o h).2.1 hnil
  · intro hnil hr hne
    rcases enum_state_or s r (some c) inull with hes | ⟨-, n, hn, -, -, hes⟩
    · rw [hes] at hne
      exact absurd hnil hne
    · obtain rfl : c = n := Option.some_inj.mp hn
      rw [hes]
  · intro h
    exact (wait_some_pres s r d t o h).2.1
  · intro h
    exact (release_some_pres s r o h).2
  · intro h hnil
    rcases (acquire_some_pres s r i pr pc o h).2.2 hnil with hc | ⟨n, hn, hlen, -, -⟩
    · exact Or.inl hc
    · exact Or.inr ⟨n, hn, hlen⟩
  · intro hnil hr hne
    exact enum_of_mismatch s r c inull hr hnil hne
  · intro h hnil
    exact (runTrace_pres ops s s' h).2.1 hnil

theorem imageStates_size_fixed_witness :
    ((initialSwapchainState false).imageStates = [] ∧ XR_SUCCEEDED 0 ∧
      (xrEnumerateSwapchainImages (initialSwapchainState false) 0 (some 2) true).state.imageStates
        ≠ []) ∧
    (xrEnumerateSwapchainImages (initialSwapchainState false) 0 (some 2) true).state.imageStates =
      List.replicate 2 ImageState.Created :=
  ⟨⟨rfl, by decide, by decide⟩,
   (imageStates_size_fixed false (initialSwapchainState false) (SwapchainOp.release 0)
      ⟨initialSwapchainState false, [], 0⟩ 0 2 true 0 0 none 0 0 []
      (initialSwapchainState false)).2.2.1 rfl (by decide) (by decide)⟩

/-- C4: on a successful `xrWaitSwapchainImage` (runtime result `XR_SUCCESS`),
if the acquired queue is non-empty and its front image is `Acquired` then that
image becomes `Waited` and the queue is left untouched with no diagnostic;
a violation is reported exactly when the queue is empty or the front image is
not in the `Acquired` state, and then nothing is mutated. -/
theorem wait_success_spec :
    ∀ (s : CustomSwapchainState) (d t : Int),
      (∀ i rest st, s.acquiredSwapchains = i :: rest → s.imageStates[i]? = some st →
        (st = ImageState.Acquired →
          xrWaitSwapchainImage s XR_SUCCESS d t =
            some ⟨⟨s.isStatic, s.imageStates.set i ImageState.Waited,
                   s.acquiredSwapchains⟩, [], XR_SUCCESS⟩) ∧
        (st ≠ ImageState.Acquired →
          xrWaitSwapchainImage s XR_SUCCESS d t =
            some ⟨s, ["Wait succeeded for image in wrong state %s"], XR_SUCCESS⟩)) ∧
      (s.acquiredSwapchains = [] →
        xrWaitSwapchainImage s XR_SUCCESS d t =
          some ⟨s, ["Wait succeeded with no acquired image."], XR_SUCCESS⟩) ∧
      (∀ o, xrWaitSwapchainImage s XR_SUCCESS d t = some o →
        (o.diags = [] ↔ ∃ i rest, s.acquiredSwapchains = i :: rest ∧
          s.imageStates[i]? = some ImageState.Acquired)) := by
  intro s d t
  refine ⟨?_, ?_, ?_⟩
  · intro i rest st hq hget
    constructor
    · intro hst
      subst hst
      exact wait_success_of_acquired s d t i rest hq hget
    · intro hst
      exact wait_success_of_wrong_state s d t i rest st hq hget hst
  · intro hq
    exact wait_success_of_nil s d t hq
  · intro o ho
    cases hq : s.acquiredSwapchains with
    | nil =>
      rw [wait_success_of_nil s d t hq] at ho
      simp only [Option.some_inj] at ho
      rw [← ho]
      constructor
      · intro hd
        exact absurd hd (by simp)
      · rintro ⟨i, rest, hc, -⟩
        exact absurd hc (by simp)
    | cons i rest =>
      cases hget : s.imageStates[i]? with
      | none =>
        rw [wait_success_of_none_get s d t i rest hq hget] at ho
        exact absurd ho (by simp)
      | some st =>
        by_cases hst : st = ImageState.Acquired
        · subst hst
          rw [wait_success_of_acquired s d t i rest hq hget] at ho
          simp only [Option.some_inj] at ho
          rw [← ho]
          exact ⟨fun _ => ⟨i, rest, rfl, hget⟩, fun _ => rfl⟩
        · rw [wait_success_of_wrong_state s d t i rest st hq hget hst] at ho
          simp only [Option.some_inj] at ho
          rw [← ho]
          constructor
          · intro hd
            exact absurd hd (by simp)
          · rintro ⟨i', rest', hc, hget'⟩
            injection hc with h1 h2
            subst h1
            rw [hget] at hget'
            exact absurd (Option.some_inj.mp hget') hst

theorem wait_success_spec_witness :
    ((⟨false, [ImageState.Acquired], [0]⟩ : CustomSwapchainState).acquiredSwapchains =
        0 :: [] ∧
      ([ImageState.Acquired])[0]? = some ImageState.Acquired) ∧
    xrWaitSwapchainImage ⟨false, [ImageState.Acquired], [0]⟩ XR_SUCCESS 0 0 =
      some ⟨⟨false, [ImageState.Acquired].set 0 ImageState.Waited, [0]⟩, [], XR_SUCCESS⟩ :=
  ⟨⟨rfl, rfl⟩,
   ((wait_success_spec ⟨false, [ImageState.Acquired], [0]⟩ 0 0).1 0 []
      ImageState.Acquired rfl rfl).1 rfl⟩

/-- C5: on a successful `xrReleaseSwapchainImage`, if the acquired queue is
non-empty and its front image is `Waited` then that image becomes `Released`
and the front of the queue is popped with no diagnostic; a violation is
reported exactly when the queue is empty or the front image is not `Waited`,
and then nothing is mutated; with an empty queue the diagnostic is
"Release succeeded with no acquired image.". -/
theorem release_success_spec :
    ∀ (s : CustomSwapchainState) (r : Int), XR_SUCCEEDED r →
      (∀ i rest st, s.acquiredSwapchains = i :: rest → s.imageStates[i]? = some st →
        (st = ImageState.Waited →
          xrReleaseSwapchainImage s r =
            some ⟨⟨s.isStatic, s.imageStates.set i ImageState.Released, rest⟩, [], r⟩) ∧
        (st ≠ ImageState.Waited →
          xrReleaseSwapchainImage s r =
            some ⟨s, ["Release succeeded for image in wrong state %s"], r⟩)) ∧
      (s.acquiredSwapchains = [] →
        xrReleaseSwapchainImage s r =
          some ⟨s, ["Release succeeded with no acquired image."], r⟩) ∧
      (∀ o, xrReleaseSwapchainImage s r = some o →
        (o.diags = [] ↔ ∃ i rest, s.acquiredSwapchains = i :: rest ∧
          s.imageStates[i]? = some ImageState.Waited)) := by
  intro s r hr
  refine ⟨?_, ?_, ?_⟩
  · intro i rest st hq hget
    constructor
    · intro hst
      subst hst
      exact release_success_of_waited s r i rest hr hq hget
    · intro hst
      exact release_success_of_wrong_state s r i rest st hr hq hget hst
  · intro hq
    exact release_success_of_nil s r hr hq
  · intro o ho
    cases hq : s.acquiredSwapchains with
    | nil =>
      rw [release_success_of_nil s r hr hq] at ho
      simp only [Option.some_inj] at ho
      rw [← ho]
      constructor
      · intro hd
        exact absurd hd (by simp)
      · rintro ⟨i, rest, hc, -⟩
        exact absurd hc (by simp)
    | cons i rest =>
      cases hget : s.imageStates[i]? with
      | none =>
        rw [release_success_of_none_get s r i rest hr hq hget] at ho
        exact absurd ho (by simp)
      | some st =>
        by_cases hst : st = ImageState.Waited
        · subst hst
          rw [release_success_of_waited s r i rest hr hq hget] at ho
          simp only [Option.some_inj] at ho
          rw [← ho]
          exact ⟨fun _ => ⟨i, rest, rfl, hget⟩, fun _ => rfl⟩
        · rw [release_success_of_wrong_state s r i rest st hr hq hget hst] at ho
          simp only [Option.some_inj] at ho
          rw [← ho]
          constructor
          · intro hd
            exact absurd hd (by simp)
          · rintro ⟨i', rest', hc, hget'⟩
            injection hc with h1 h2
            subst h1
            rw [hget] at hget'
            exact absurd (Option.some_inj.mp hget') hst

theorem release_success_spec_witness :
    XR_SUCCEEDED 0 ∧
    ((initialSwapchainState false).acquiredSwapchains = []) ∧
    xrReleaseSwapchainImage (initialSwapchainState false) 0 =
      some ⟨initialSwapchainState false, ["Release succeeded with no acquired image."], 0⟩ :=
  ⟨by decide, rfl,
   (release_success_spec (initialSwapchainState false) 0 (by decide)).2.1 rfl⟩

/-- C6: a wait call whose runtime result is `XR_TIMEOUT_EXPIRED` mutates no
tracked state, and raises a diagnostic exactly when the measured elapsed
duration is strictly below the requested timeout; an elapsed time equal to or
past the timeout raises none. -/
theorem wait_timeout_spec :
    ∀ (s : CustomSwapchainState) (d t : Int),
      xrWaitSwapchainImage s XR_TIMEOUT_EXPIRED d t =
        some ⟨s, if d < t then ["Wait returned before timeout."] else [],
              XR_TIMEOUT_EXPIRED⟩ ∧
      ((if d < t then (["Wait returned before timeout."] : List String) else []) ≠ [] ↔
        d < t) := by
  intro s d t
  refine ⟨wait_timeout_eq s d t, ?_⟩
  by_cases hd : d < t
  · rw [if_pos hd]
    simp [hd]
  · rw [if_neg hd]
    simp [hd]

/-- C7: a successful enumeration on a static swapchain reporting a count other
than one always raises a diagnostic; every operation preserves the static flag
and keeps a populated static swapchain at exactly one image, so along any
trace of a static swapchain the image-state vector never holds more than one
entry. -/
theorem static_swapchain_single_image :
    ∀ (s : CustomSwapchainState) (r : Int) (c : Nat) (inull : Bool) (op : SwapchainOp)
      (o : Outcome) (ops : List SwapchainOp) (s' : CustomSwapchainState),
      (XR_SUCCEEDED r → s.isStatic = true → c ≠ 1 →
        (xrEnumerateSwapchainImages s r (some c) inull).diags ≠ []) ∧
      (applyOp s op = some o → s.isStatic = true → s.imageStates.length = 1 →
        o.state.isStatic = true ∧ o.state.imageStates.length = 1) ∧
      (runTrace (initialSwapchainState true) ops = some s' →
        s'.isStatic = true ∧ s'.imageStates.length ≤ 1) := by
  intro s r c inull op o ops s'
  refine ⟨?_, ?_, ?_⟩
  · intro hr hs hc
    exact enum_diags_of_static_ne_one s r c inull hr hs hc
  · intro h hs hlen
    obtain ⟨p1, p2, -⟩ := applyOp_pres s op o h
    refine ⟨p1.trans hs, ?_⟩
    rw [p2 (by intro hc; rw [hc] at hlen; exact absurd hlen (by simp)), hlen]
  · intro h
    obtain ⟨p1, -, p3⟩ := runTrace_pres ops (initialSwapchainState true) s' h
    exact ⟨p1, p3 rfl (by simp [initialSwapchainState])⟩

theorem static_swapchain_single_image_witness :
    (XR_SUCCEEDED 0 ∧ (⟨true, [], []⟩ : CustomSwapchainState).isStatic = true ∧
      (3 : Nat) ≠ 1) ∧
    (xrEnumerateSwapchainImages ⟨true, [], []⟩ 0 (some 3) true).diags ≠ [] :=
  ⟨⟨by decide, rfl, by decide⟩,
   (static_swapchain_single_image ⟨true, [], []⟩ 0 3 true (SwapchainOp.release 0)
      ⟨⟨true, [], []⟩, [], 0⟩ [] ⟨true, [], []⟩).1 (by decide) rfl (by decide)⟩

/-- C8: a successful acquire issued while `imageStates` is still empty first
performs the implicit enumeration probe, which populates the tracked states to
the probe's reported count (all `Created`), and then the normal Acquire
validation proceeds on the populated state; no diagnostic is raised merely
because the application skipped an explicit enumeration call. -/
theorem acquire_implicit_probe :
    ∀ (s : CustomSwapchainState) (r pr : Int) (c i : Nat),
      s.imageStates = [] → XR_SUCCEEDED r → XR_SUCCEEDED pr → c ≠ 0 →
      (s.isStatic = true → c = 1) → i < c →
      (xrEnumerateSwapchainImages s pr (some c) true).state.imageStates =
        List.replicate c ImageState.Created ∧
      (xrEnumerateSwapchainImages s pr (some c) true).diags = [] ∧
      xrAcquireSwapchainImage s r i pr (some c) =
        some ⟨⟨s.isStatic, (List.replicate c ImageState.Created).set i ImageState.Acquired,
               s.acquiredSwapchains ++ [i]⟩, [], r⟩ := by
  intro s r pr c i hnil hr hpr hc0 hc1 hi
  have henum := enum_populate s pr c true hpr hnil hc0 hc1
  refine ⟨by rw [henum], by rw [henum], ?_⟩
  rw [acquire_of_nil s r i pr (some c) hr hnil]
  rw [henum]
  unfold acquireAfterProbe
  rw [if_pos hpr]
  rw [acquireTail_of_ok _ [] i r ImageState.Created
    (by simpa using List.getElem?_replicate_of_lt hi) (by simp) (by simp) (by simp)]

theorem acquire_implicit_probe_witness :
    ((initialSwapchainState false).imageStates = [] ∧ XR_SUCCEEDED 0 ∧
      (3 : Nat) ≠ 0 ∧ (1 : Nat) < 3) ∧
    xrAcquireSwapchainImage (initialSwapchainState false) 0 1 0 (some 3) =
      some ⟨⟨false, (List.replicate 3 ImageState.Created).set 1 ImageState.Acquired,
             [] ++ [1]⟩, [], 0⟩ :=
  ⟨⟨rfl, by decide, by decide, by decide⟩,
   (acquire_implicit_probe (initialSwapchainState false) 0 0 3 1 rfl (by decide) (by decide)
      (by decide) (fun hc => absurd hc (by decide)) (by decide)).2.2⟩

/-- C9: once a reachable swapchain's `imageStates` is populated with `n`
entries, every further successful enumeration with a null image array
reporting the same count `n` is idempotent: it returns the state unchanged,
emits no diagnostic, and iterating it any number of times leaves the tracked
state fixed. -/
theorem enumerate_idempotent :
    ∀ (bst : Bool) (ops : List SwapchainOp) (s' : CustomSwapchainState) (n : Nat) (r : Int),
      runTrace (initialSwapchainState bst) ops = some s' →
      s'.imageStates.length = n → n ≠ 0 → XR_SUCCEEDED r →
      xrEnumerateSwapchainImages s' r (some n) true = ⟨s', [], r⟩ ∧
      ∀ k : Nat,
        Nat.iterate (fun u => (xrEnumerateSwapchainImages u r (some n) true).state) k s' =
          s' := by
  intro bst ops s' n r h hlen hn hr
  obtain ⟨p1, -, p3⟩ := runTrace_pres ops (initialSwapchainState bst) s' h
  have hstat : s'.isStatic = true → n = 1 := by
    intro hs
    have hb : bst = true := by
      rw [← hs, p1]
      rfl
    have hle := p3 hb (Nat.zero_le 1)
    rw [hlen] at hle
    omega
  have hstep := enum_of_match s' r n true hr hlen hn hstat
  refine ⟨hstep, ?_⟩
  intro k
  exact Function.iterate_fixed (by rw [hstep]) k

theorem enumerate_idempotent_witness :
    (runTrace (initialSwapchainState false) [SwapchainOp.enumerate 0 (some 2) true] =
      some ⟨false, List.replicate 2 ImageState.Created, []⟩ ∧
      (List.replicate 2 ImageState.Created).length = 2 ∧ (2 : Nat) ≠ 0 ∧ XR_SUCCEEDED 0) ∧
    xrEnumerateSwapchainImages ⟨false, List.replicate 2 ImageState.Created, []⟩ 0
        (some 2) true =
      ⟨⟨false, List.replicate 2 ImageState.Created, []⟩, [], 0⟩ :=
  ⟨⟨by decide, by decide, by decide, by decide⟩,
   (enumerate_idempotent false [SwapchainOp.enumerate 0 (some 2) true]
      ⟨false, List.replicate 2 ImageState.Created, []⟩ 2 0 (by decide) (by decide)
      (by decide) (by decide)).1⟩

/-- C10: the claim that the `imageStates[*index]` access in
`xrAcquireSwapchainImage` is always in bounds fails: after the implicit
enumeration probe the runtime-written index is not bounds-checked, so a
successful acquire whose probe reports one image while the runtime writes
index 5, or whose probe succeeds while reporting a zero count (leaving
`imageStates` empty), reaches the unconditional access out of bounds — the
total embedding returns `none` for the lookup. -/
theorem acquire_unchecked_access_after_probe :
    xrAcquireSwapchainImage (initialSwapchainState false) 0 5 0 (some 1) = none ∧
    xrAcquireSwapchainImage (initialSwapchainState false) 0 0 0 (some 0) = none :=
  ⟨by decide, by decide⟩

end OpenXRConformance

end Claims
